import Mathlib

/-!
Shallow embedding of the stock-trading-platform-api core:
`StocksService` (stocks.service.ts), `TransactionsService`
(transactions.service.ts, fuse-api) and `getConfiguration`
(configuration). Prices and amounts are JS numbers, modelled as
rationals; timestamps are epoch milliseconds, modelled as integers;
database ids (cuid strings) are modelled as naturals drawn from a
fresh-id counter in the state.
-/

deriving instance DecidableEq for Except

namespace STP

/-- JS `toUpperCase`, defined by mapping `Char.toUpper` over the
characters (kernel-computable, unlike `String.toUpper`). -/
def jsToUpperCase (s : String) : String := String.mk (s.data.map Char.toUpper)

/-- `TransactionType` enum from the Prisma schema / common.dto. -/
inductive TransactionType where
  | BUY
  | SELL
  deriving DecidableEq, Repr

/-- `TransactionStatus` enum from the Prisma schema / common.dto. -/
inductive TransactionStatus where
  | PENDING
  | SUCCESS
  | FAILED
  deriving DecidableEq, Repr

/-- `Stock` row: {id, symbol (unique), name, price, lastUpdated}. -/
structure Stock where
  id : Nat
  symbol : String
  name : String
  price : ℚ
  lastUpdated : Int
  deriving DecidableEq, Repr

/-- `Transaction` row from the Prisma schema. -/
structure Transaction where
  id : Nat
  userId : String
  stockId : Nat
  type : TransactionType
  quantity : ℚ
  price : ℚ
  totalAmount : ℚ
  status : TransactionStatus
  errorMessage : Option String
  createdAt : Int
  processedAt : Option Int
  deriving DecidableEq, Repr

/-- `Portfolio` row: {id, userId, name}. -/
structure Portfolio where
  id : Nat
  userId : String
  name : String
  deriving DecidableEq, Repr

/-- `PortfolioStock` row: {id, portfolioId, stockId, quantity, averagePrice},
unique on (portfolioId, stockId). -/
structure PortfolioStock where
  id : Nat
  portfolioId : Nat
  stockId : Nat
  quantity : ℚ
  averagePrice : ℚ
  deriving DecidableEq, Repr

/-- The persistent store reachable through Prisma: all tables the stock
purchase pipeline touches, plus a fresh-id counter modelling cuid
generation. -/
structure DB where
  stocks : List Stock
  transactions : List Transaction
  portfolios : List Portfolio
  positions : List PortfolioStock
  nextId : Nat
  deriving DecidableEq, Repr

/-- One item of the vendor listing response (`VendorStockDto`). -/
structure VendorStock where
  symbol : String
  name : String
  price : ℚ
  deriving DecidableEq, Repr

/-- A primitive database mutation, recorded in execution order so that
ordering invariants of `buyStock` can be stated over its trace. -/
inductive DBEvent where
  | stockUpsert (symbol : String)
  | txCreate (id : Nat)
  | txUpdate (id : Nat) (status : TransactionStatus)
  | portfolioCreate (id : Nat)
  | positionCreate (portfolioId stockId : Nat)
  | positionUpdate (portfolioId stockId : Nat)
  deriving DecidableEq, Repr

/-- `StockDto` as returned by `getStockBySymbol`. -/
structure StockDto where
  id : Nat
  symbol : String
  name : String
  price : ℚ
  lastUpdated : Int
  deriving DecidableEq, Repr

/-- Result shape of `buyStock`:
`{ success: boolean; message?: string; transactionId?: string }`. -/
structure BuyResult where
  success : Bool
  message : Option String
  transactionId : Option Nat
  deriving DecidableEq, Repr

def Stock.toDto (s : Stock) : StockDto :=
  { id := s.id, symbol := s.symbol, name := s.name, price := s.price,
    lastUpdated := s.lastUpdated }

/-- `prisma.stock.upsert` keyed by the uppercased symbol: update
name/price/lastUpdated when a row with that symbol exists, otherwise
create a fresh row. Returns the resulting row, the new store and the
recorded event. -/
def upsertStock (symbol name : String) (price : ℚ) (now : Int) (db : DB) :
    Stock × DB × List DBEvent :=
  let sym := jsToUpperCase symbol
  match db.stocks.find? (fun s => s.symbol = sym) with
  | some s =>
      let s2 : Stock := { s with name := name, price := price, lastUpdated := now }
      (s2,
       { db with stocks := db.stocks.map (fun t => if t.symbol = sym then s2 else t) },
       [DBEvent.stockUpsert sym])
  | none =>
      let s2 : Stock := { id := db.nextId, symbol := sym, name := name, price := price,
                          lastUpdated := now }
      (s2,
       { db with stocks := db.stocks ++ [s2], nextId := db.nextId + 1 },
       [DBEvent.stockUpsert sym])

/-- `updateStockCache(vendorStocks)`: upsert every vendor item with
`lastUpdated = new Date()`. A storage failure (`storeOk = false`) is
caught and logged, not rethrown — the store is left unchanged and no
error reaches the caller. -/
def updateStockCache (storeOk : Bool) (vendorStocks : List VendorStock) (now : Int)
    (db : DB) : DB × List DBEvent :=
  if storeOk then
    vendorStocks.foldl
      (fun acc vs =>
        let (_, db2, evs) := upsertStock vs.symbol vs.name vs.price now acc.1
        (db2, acc.2 ++ evs))
      (db, [])
  else
    (db, [])

/-- `getStocksFromVendor`: the vendor HTTP call (already wrapped in the
retry pipeline) is modelled by its resolved outcome `listing`; on
success the local stock cache is updated and the vendor items are
returned; on failure the HttpException propagates. -/
def getStocksFromVendor (listing : Except String (List VendorStock)) (storeOk : Bool)
    (now : Int) (db : DB) :
    Except String (List VendorStock) × DB × List DBEvent :=
  match listing with
  | Except.error msg => (Except.error msg, db, [])
  | Except.ok items =>
      let (db2, evs) := updateStockCache storeOk items now db
      (Except.ok items, db2, evs)

/-- The staleness cutoff of `getStockBySymbol`:
`fiveMinutesAgo = Date.now() - 5 * 60 * 1000`. -/
def fiveMinutesAgo (now : Int) : Int := now - 5 * 60 * 1000

/-- The refresh block of `getStockBySymbol` (run when the cached row is
absent or stale): fetch the full vendor listing (which also updates the
cache), find the requested symbol among the returned items — null when
absent — and upsert it. -/
def refreshAndRead (symbol : String) (listing : Except String (List VendorStock))
    (storeOk : Bool) (now : Int) (db : DB) :
    Except String (Option StockDto) × DB × List DBEvent × Bool :=
  match getStocksFromVendor listing storeOk now db with
  | (Except.error msg, db2, evs) => (Except.error msg, db2, evs, true)
  | (Except.ok items, db2, evs) =>
      match items.find? (fun v => jsToUpperCase v.symbol = jsToUpperCase symbol) with
      | none => (Except.ok none, db2, evs, true)
      | some vs =>
          let (row, db3, evs2) := upsertStock symbol vs.name vs.price now db2
          (Except.ok (some row.toDto), db3, evs ++ evs2, true)

/-- `getStockBySymbol(symbol)`: serve the cached row when present and
not stale; otherwise run the refresh block. Returns the dto (or null),
the new store, the trace, and whether the vendor was called. -/
def getStockBySymbol (symbol : String) (listing : Except String (List VendorStock))
    (storeOk : Bool) (now : Int) (db : DB) :
    Except String (Option StockDto) × DB × List DBEvent × Bool :=
  match db.stocks.find? (fun s => s.symbol = jsToUpperCase symbol) with
  | some stock =>
      if stock.lastUpdated < fiveMinutesAgo now then
        refreshAndRead symbol listing storeOk now db
      else
        (Except.ok (some stock.toDto), db, [], false)
  | none => refreshAndRead symbol listing storeOk now db

/-- The single-fill position update of `updateUserPortfolio`: on an
existing position `(oldQty, oldAvg)` compute
`totalShares = oldQty + quantity`,
`totalCost = oldQty*oldAvg + quantity*price`,
`newAveragePrice = totalCost / totalShares`; on no position, create it
at `(quantity, price)`. -/
def applyFill (pos : Option (ℚ × ℚ)) (quantity price : ℚ) : ℚ × ℚ :=
  match pos with
  | some (oldQty, oldAvg) =>
      let totalShares := oldQty + quantity
      let totalCost := oldQty * oldAvg + quantity * price
      (totalShares, totalCost / totalShares)
  | none => (quantity, price)

/-- `updateUserPortfolio(userId, stockId, quantity, price)`: get or
create the user's default portfolio, then create the position or update
it with the weighted-average recomputation. -/
def updateUserPortfolio (userId : String) (stockId : Nat) (quantity price : ℚ)
    (db : DB) : DB × List DBEvent :=
  let (portfolio, db1, evs1) :=
    match db.portfolios.find? (fun p => p.userId = userId) with
    | some p => (p, db, ([] : List DBEvent))
    | none =>
        let p : Portfolio := { id := db.nextId, userId := userId,
                               name := "Default Portfolio" }
        (p, { db with portfolios := db.portfolios ++ [p], nextId := db.nextId + 1 },
         [DBEvent.portfolioCreate p.id])
  match db1.positions.find? (fun ps => ps.portfolioId = portfolio.id ∧ ps.stockId = stockId) with
  | some existingPosition =>
      let updated := applyFill (some (existingPosition.quantity, existingPosition.averagePrice))
                        quantity price
      let positions2 := db1.positions.map
           (fun ps => if ps.id = existingPosition.id then
              { ps with quantity := updated.1, averagePrice := updated.2 } else ps)
      ({ db1 with positions := positions2 },
       evs1 ++ [DBEvent.positionUpdate portfolio.id stockId])
  | none =>
      let newPos : PortfolioStock :=
        { id := db1.nextId, portfolioId := portfolio.id, stockId := stockId,
          quantity := quantity, averagePrice := price }
      ({ db1 with positions := db1.positions ++ [newPos], nextId := db1.nextId + 1 },
       evs1 ++ [DBEvent.positionCreate portfolio.id stockId])

/-- The 2% pre-trade gate of `buyStock`: the request passes when
`|currentPrice - requestedPrice|` does not exceed
`currentPrice * 0.02`. -/
def priceWithinTolerance (currentPrice requestedPrice : ℚ) : Bool :=
  decide (|currentPrice - requestedPrice| ≤ currentPrice * (2 / 100))

/-- `buyStock(symbol, {price, quantity}, userId)`. Vendor interactions
are modelled by their resolved outcomes: `listing` for the price-cache
refresh inside `getStockBySymbol` and `vendorBuy` for the POST buy call
(both after the retry pipeline). Returns the result (or the propagated
exception), the final store, and the trace of mutations in execution
order. -/
def buyStock (symbol : String) (price quantity : ℚ) (userId : String)
    (listing : Except String (List VendorStock)) (storeOk : Bool)
    (vendorBuy : Except String Unit) (now : Int) (db : DB) :
    Except String BuyResult × DB × List DBEvent :=
  match getStockBySymbol symbol listing storeOk now db with
  | (Except.error msg, db1, evs1, _) => (Except.error msg, db1, evs1)
  | (Except.ok none, db1, evs1, _) =>
      (Except.error ("Stock " ++ symbol ++ " not found"), db1, evs1)
  | (Except.ok (some currentStock), db1, evs1, _) =>
      let priceDifference := |currentStock.price - price|
      let tolerance := currentStock.price * (2 / 100)
      if priceDifference > tolerance then
        (Except.ok { success := false,
                     message := some ("Price outside 2 percent tolerance of current price"),
                     transactionId := none },
         db1, evs1)
      else
        let transaction : Transaction :=
          { id := db1.nextId, userId := userId, stockId := currentStock.id,
            type := TransactionType.BUY, quantity := quantity, price := price,
            totalAmount := price * quantity, status := TransactionStatus.PENDING,
            errorMessage := none, createdAt := now, processedAt := none }
        let db2 : DB := { db1 with
          transactions := db1.transactions ++ [transaction]
          nextId := db1.nextId + 1 }
        let evs2 := evs1 ++ [DBEvent.txCreate transaction.id]
        match vendorBuy with
        | Except.ok _ =>
            let txs3 := db2.transactions.map
                (fun t => if t.id = transaction.id then
                   { t with status := TransactionStatus.SUCCESS, processedAt := some now }
                 else t)
            let db3 : DB := { db2 with transactions := txs3 }
            let up := updateUserPortfolio userId currentStock.id quantity price db3
            (Except.ok { success := true, message := none,
                         transactionId := some transaction.id },
             up.1, evs2 ++ [DBEvent.txUpdate transaction.id TransactionStatus.SUCCESS] ++ up.2)
        | Except.error vendorMsg =>
            let txs3 := db2.transactions.map
                (fun t => if t.id = transaction.id then
                   { t with
                     status := TransactionStatus.FAILED
                     errorMessage := some vendorMsg
                     processedAt := some now }
                 else t)
            let db3 : DB := { db2 with transactions := txs3 }
            (Except.ok { success := false, message := some vendorMsg,
                         transactionId := some transaction.id },
             db3, evs2 ++ [DBEvent.txUpdate transaction.id TransactionStatus.FAILED])

/-- Input of `updateTransactionStatus` (`ProcessTransactionDto`). -/
structure ProcessTransactionDto where
  transactionId : Nat
  status : TransactionStatus
  errorMessage : Option String
  deriving DecidableEq, Repr

/-- `updateTransactionStatus` (fuse-api TransactionsService):
`prisma.transaction.update` on the id, setting status, errorMessage and
`processedAt = new Date()` unconditionally. Prisma throws (P2025) only
when no row with that id exists. Returns the updated row and store. -/
def updateTransactionStatus (dto : ProcessTransactionDto) (now : Int)
    (transactions : List Transaction) :
    Except String (Transaction × List Transaction) :=
  match transactions.find? (fun t => t.id = dto.transactionId) with
  | none => Except.error "Record to update not found."
  | some t =>
      let t2 : Transaction := { t with
        status := dto.status
        errorMessage := dto.errorMessage
        processedAt := some now }
      Except.ok (t2, transactions.map (fun u => if u.id = dto.transactionId then t2 else u))

/-- `TransactionDto` as mapped by the fuse-api TransactionsService
(stock relation joined for the symbol). -/
structure TransactionDto where
  id : Nat
  userId : String
  stockId : Nat
  symbol : String
  type : TransactionType
  quantity : ℚ
  price : ℚ
  total : ℚ
  status : TransactionStatus
  errorMessage : Option String
  createdAt : Int
  processedAt : Option Int
  deriving DecidableEq, Repr

/-- The row-to-dto mapping applied by every read path of the
TransactionsService. -/
def mapTransaction (stocks : List Stock) (t : Transaction) : TransactionDto :=
  { id := t.id, userId := t.userId, stockId := t.stockId,
    symbol := ((stocks.find? (fun s => s.id = t.stockId)).map Stock.symbol).getD "",
    type := t.type, quantity := t.quantity, price := t.price, total := t.totalAmount,
    status := t.status, errorMessage := t.errorMessage, createdAt := t.createdAt,
    processedAt := t.processedAt }

/-- Insertion step for `orderBy: createdAt desc`. -/
def insertByCreatedDesc (t : TransactionDto) : List TransactionDto → List TransactionDto
  | [] => [t]
  | u :: us =>
      if u.createdAt < t.createdAt then t :: u :: us else u :: insertByCreatedDesc t us

/-- `orderBy: { createdAt: 'desc' }`. -/
def sortByCreatedDesc (l : List TransactionDto) : List TransactionDto :=
  l.foldr insertByCreatedDesc []

/-- Grouped result of `getTransactionsForDateRange`. -/
structure GroupedTransactions where
  successful : List TransactionDto
  failed : List TransactionDto
  pending : List TransactionDto
  deriving DecidableEq, Repr

/-- `getTransactionsForDateRange(startDate, endDate)`: read-only query
of all transactions with `createdAt` in `[startDate, endDate]`, ordered
by createdAt descending, mapped to dtos, then grouped by status. -/
def getTransactionsForDateRange (stocks : List Stock) (transactions : List Transaction)
    (startDate endDate : Int) : GroupedTransactions :=
  let mappedTransactions :=
    sortByCreatedDesc
      ((transactions.filter
          (fun t => startDate ≤ t.createdAt ∧ t.createdAt ≤ endDate)).map
        (mapTransaction stocks))
  { successful := mappedTransactions.filter (fun t => t.status = TransactionStatus.SUCCESS)
    failed := mappedTransactions.filter (fun t => t.status = TransactionStatus.FAILED)
    pending := mappedTransactions.filter (fun t => t.status = TransactionStatus.PENDING) }

def msPerDay : Int := 86400000

/-- JS `date.setHours(0, 0, 0, 0)`: the date object is set, in place,
to the first millisecond of its day. -/
def jsSetHoursStart (d : Int) : Int := d - d % msPerDay

/-- JS `date.setHours(23, 59, 59, 999)`: the date object is set, in
place, to the last millisecond of its day. -/
def jsSetHoursEnd (d : Int) : Int := d - d % msPerDay + (msPerDay - 1)

/-- Result shape of `getDailyTransactionStats`. -/
structure DailyStats where
  totalTransactions : Nat
  successfulTransactions : Nat
  failedTransactions : Nat
  pendingTransactions : Nat
  totalVolume : ℚ
  totalValue : ℚ
  deriving DecidableEq, Repr

/-- `getDailyTransactionStats(date)`: `date.setHours(0,0,0,0)` and
`date.setHours(23,59,59,999)` mutate the caller's Date object in place;
the second call runs on the already-mutated date. Returns the stats and
the final value of the mutated input date. -/
def getDailyTransactionStats (stocks : List Stock) (transactions : List Transaction)
    (date : Int) : DailyStats × Int :=
  let startOfDay := jsSetHoursStart date
  let date1 := startOfDay
  let endOfDay := jsSetHoursEnd date1
  let date2 := endOfDay
  let grouped := getTransactionsForDateRange stocks transactions startOfDay endOfDay
  let allTransactions := grouped.successful ++ grouped.failed ++ grouped.pending
  ({ totalTransactions := allTransactions.length
     successfulTransactions := grouped.successful.length
     failedTransactions := grouped.failed.length
     pendingTransactions := grouped.pending.length
     totalVolume := (allTransactions.map (fun t => t.quantity)).sum
     totalValue := (grouped.successful.map (fun t => t.total)).sum },
   date2)

/-- An axios-level failure: `statusCode = none` models a network error
or timeout (no HTTP response), `some c` an HTTP error status `c`. -/
structure HttpError where
  statusCode : Option Nat
  message : String
  deriving DecidableEq, Repr

/-- Resubscription loop of rxjs `retry({ count, delay })`: `attempt i`
is the outcome of the i-th subscription to the source; `fuel` is the
number of resubscriptions still allowed. On any error with fuel left,
resubscribe; otherwise surface the error. No inspection of the error is
performed. Returns the final outcome and the number of attempts made. -/
def rxRetryAux {α : Type} (attempt : Nat → Except HttpError α) (idx : Nat) :
    Nat → Except HttpError α × Nat
  | 0 => (attempt idx, idx + 1)
  | fuel + 1 =>
      match attempt idx with
      | Except.ok a => (Except.ok a, idx + 1)
      | Except.error _ => rxRetryAux attempt (idx + 1) fuel

/-- rxjs `retry({ count, delay })` as used by `getStocksFromVendor` and
`buyStock`: up to `count` resubscriptions after the initial attempt,
with `delay` milliseconds before each resubscription. -/
def rxRetry {α : Type} (attempt : Nat → Except HttpError α) (count : Nat) :
    Except HttpError α × Nat :=
  rxRetryAux attempt 0 count

/-- Milliseconds slept by the retry pipeline: `delay` before each of
the `attemptsMade - 1` resubscriptions. -/
def retryTotalDelay (attemptsMade : Nat) (delay : Nat) : Nat :=
  (attemptsMade - 1) * delay

/-- `vendorApi` section of `getConfiguration`. -/
structure VendorApiConfig where
  retryAttempts : Int
  retryDelay : Int
  deriving DecidableEq, Repr

/-- JS `parseInt(env) || dflt`: an unset or non-numeric variable parses
to NaN (modelled `none`) and falls back to the default; a parsed 0 is
falsy and also falls back. -/
def jsParseIntOr (env : Option Int) (dflt : Int) : Int :=
  match env with
  | none => dflt
  | some n => if n = 0 then dflt else n

/-- `getConfiguration().vendorApi`:
`retryAttempts = parseInt(API_RETRY_ATTEMPTS) || 3`,
`retryDelay = parseInt(API_RETRY_DELAY) || 1000`. -/
def getConfiguration (envRetryAttempts envRetryDelay : Option Int) : VendorApiConfig :=
  { retryAttempts := jsParseIntOr envRetryAttempts 3
    retryDelay := jsParseIntOr envRetryDelay 1000 }

/-- A sequence of fills `(quantity, price)` applied into an initially
absent position, each through the `updateUserPortfolio` recomputation
(`applyFill`). -/
def applyFills (fills : List (ℚ × ℚ)) : Option (ℚ × ℚ) :=
  fills.foldl (fun acc qp => some (applyFill acc qp.1 qp.2)) none

theorem applyFills_foldl_some (fills : List (ℚ × ℚ)) (Q A : ℚ) (hQ : 0 < Q)
    (hpos : ∀ qp ∈ fills, 0 < qp.1) :
    fills.foldl (fun acc qp => some (applyFill acc qp.1 qp.2)) (some (Q, A)) =
      some (Q + (fills.map Prod.fst).sum,
        (Q * A + (fills.map (fun qp => qp.1 * qp.2)).sum) / (Q + (fills.map Prod.fst).sum)) := by
  induction fills generalizing Q A with
  | nil =>
      simp only [List.foldl_nil, List.map_nil, List.sum_nil, add_zero]
      rw [mul_div_cancel_left₀ A (ne_of_gt hQ)]
  | cons qp rest ih =>
      have hq : 0 < qp.1 := hpos qp (List.mem_cons_self qp rest)
      have hQq : 0 < Q + qp.1 := add_pos hQ hq
      have hrest : ∀ x ∈ rest, 0 < x.1 := fun x hx => hpos x (List.mem_cons_of_mem qp hx)
      rw [List.foldl_cons]
      show (rest.foldl (fun acc qp => some (applyFill acc qp.1 qp.2))
              (some (Q + qp.1, (Q * A + qp.1 * qp.2) / (Q + qp.1)))) = _
      rw [ih (Q + qp.1) _ hQq hrest]
      have hnum : (Q + qp.1) * ((Q * A + qp.1 * qp.2) / (Q + qp.1)) =
          Q * A + qp.1 * qp.2 := mul_div_cancel₀ _ (ne_of_gt hQq)
      rw [hnum]
      simp only [List.map_cons, List.sum_cons, add_assoc]

theorem applyFills_closed_form (fills : List (ℚ × ℚ)) (hne : fills ≠ [])
    (hpos : ∀ qp ∈ fills, 0 < qp.1) :
    applyFills fills = some ((fills.map Prod.fst).sum,
      (fills.map (fun qp => qp.1 * qp.2)).sum / (fills.map Prod.fst).sum) := by
  match fills, hne with
  | qp :: rest, _ =>
      have hq : 0 < qp.1 := hpos qp (List.mem_cons_self qp rest)
      have hrest : ∀ x ∈ rest, 0 < x.1 := fun x hx => hpos x (List.mem_cons_of_mem qp hx)
      show (rest.foldl (fun acc qp => some (applyFill acc qp.1 qp.2)) (some (qp.1, qp.2))) = _
      rw [applyFills_foldl_some rest qp.1 qp.2 hq hrest]
      simp only [List.map_cons, List.sum_cons]

/-- C2: applying fills (q1,p1),…,(qn,pn) into an initially absent
position through the `updateUserPortfolio` recomputation yields
quantity Σqi and averagePrice Σ(qi*pi)/Σqi; the result is the same for
every order of the fills; and each single fill on an existing position
computes averagePrice = (oldQty*oldAvg + newQty*fillPrice) /
(oldQty + newQty). -/
theorem weighted_average_invariant (fills fills' : List (ℚ × ℚ))
    (hne : fills ≠ []) (hpos : ∀ qp ∈ fills, 0 < qp.1) (hperm : fills.Perm fills') :
    applyFills fills = some ((fills.map Prod.fst).sum,
      (fills.map (fun qp => qp.1 * qp.2)).sum / (fills.map Prod.fst).sum)
    ∧ applyFills fills' = applyFills fills
    ∧ ∀ oldQty oldAvg newQty fillPrice : ℚ,
        applyFill (some (oldQty, oldAvg)) newQty fillPrice =
          (oldQty + newQty, (oldQty * oldAvg + newQty * fillPrice) / (oldQty + newQty)) := by
  have hne' : fills' ≠ [] := by
    intro h
    exact hne (List.eq_nil_of_length_eq_zero (by rw [hperm.length_eq, h]; rfl))
  have hpos' : ∀ qp ∈ fills', 0 < qp.1 := fun qp hqp => hpos qp (hperm.mem_iff.mpr hqp)
  have hsum1 : (fills'.map Prod.fst).sum = (fills.map Prod.fst).sum :=
    (hperm.map Prod.fst).symm.sum_eq
  have hsum2 : (fills'.map (fun qp => qp.1 * qp.2)).sum =
      (fills.map (fun qp => qp.1 * qp.2)).sum :=
    (hperm.map (fun qp => qp.1 * qp.2)).symm.sum_eq
  refine ⟨applyFills_closed_form fills hne hpos, ?_, ?_⟩
  · rw [applyFills_closed_form fills hne hpos, applyFills_closed_form fills' hne' hpos',
      hsum1, hsum2]
  · intro oldQty oldAvg newQty fillPrice
    rfl

/-- Witness for C2 at the spec's example: 100@170 then 50@350 gives
quantity 150 and averagePrice 230, in either order. -/
theorem weighted_average_invariant_witness :
    applyFills [((100 : ℚ), (170 : ℚ)), (50, 350)] = some (150, 230)
    ∧ applyFills [((50 : ℚ), (350 : ℚ)), (100, 170)] =
        applyFills [((100 : ℚ), (170 : ℚ)), (50, 350)] := by
  have h := weighted_average_invariant [((100 : ℚ), (170 : ℚ)), (50, 350)]
    [((50 : ℚ), (350 : ℚ)), (100, 170)] (by decide)
    (by intro qp hqp; fin_cases hqp <;> norm_num) (by decide)
  exact ⟨h.1.trans (by norm_num), h.2.1⟩

/-- The message attached to the tolerance rejection of `buyStock`. -/
def toleranceMessage : String := "Price outside 2 percent tolerance of current price"

/-- A sample store: AAPL cached at price 100, fresh at time 1000. -/
def sampleDb : DB :=
  { stocks := [{ id := 1, symbol := "AAPL", name := "Apple", price := 100, lastUpdated := 1000 }]
    transactions := [], portfolios := [], positions := [], nextId := 2 }

theorem buyStock_rejected_of_tolerance (symbol : String) (r q : ℚ) (uid : String)
    (listing : Except String (List VendorStock)) (storeOk : Bool)
    (vendorBuy : Except String Unit) (now : Int) (db : DB)
    (dto : StockDto) (db1 : DB) (evs1 : List DBEvent) (called : Bool)
    (hget : getStockBySymbol symbol listing storeOk now db =
      (Except.ok (some dto), db1, evs1, called))
    (h : dto.price * (2 / 100) < |dto.price - r|) :
    buyStock symbol r q uid listing storeOk vendorBuy now db =
      (Except.ok { success := false, message := some toleranceMessage,
                   transactionId := none }, db1, evs1) := by
  simp only [buyStock, hget]
  rw [if_pos h]
  rfl

theorem buyStock_admitted_of_tolerance (symbol : String) (r q : ℚ) (uid : String)
    (listing : Except String (List VendorStock)) (storeOk : Bool)
    (vendorBuy : Except String Unit) (now : Int) (db : DB)
    (dto : StockDto) (db1 : DB) (evs1 : List DBEvent) (called : Bool)
    (hget : getStockBySymbol symbol listing storeOk now db =
      (Except.ok (some dto), db1, evs1, called))
    (h : ¬ dto.price * (2 / 100) < |dto.price - r|) :
    ∃ res : BuyResult,
      (buyStock symbol r q uid listing storeOk vendorBuy now db).1 = Except.ok res
      ∧ res.transactionId = some db1.nextId := by
  simp only [buyStock, hget]
  rw [if_neg h]
  cases vendorBuy with
  | ok u => exact ⟨_, rfl, rfl⟩
  | error msg => exact ⟨_, rfl, rfl⟩

/-- C1: with P the current cached price resolved for the requested
symbol, a buy request passes the pre-trade gate (a transaction is
opened) exactly when |P - requestedPrice| ≤ P * 0.02; a violating
request yields success=false with an explanatory message; requested
prices P*1.02 and P*0.98 are accepted while P*1.021 and P*0.979 are
rejected. -/
theorem tolerance_gate (symbol : String) (P r q : ℚ) (uid : String)
    (listing : Except String (List VendorStock)) (storeOk : Bool)
    (vendorBuy : Except String Unit) (now : Int) (db : DB)
    (dto : StockDto) (db1 : DB) (evs1 : List DBEvent) (called : Bool)
    (hget : getStockBySymbol symbol listing storeOk now db =
      (Except.ok (some dto), db1, evs1, called))
    (hP : dto.price = P) (hpos : 0 < P) :
    ((∃ res : BuyResult,
        (buyStock symbol r q uid listing storeOk vendorBuy now db).1 = Except.ok res
        ∧ res.transactionId.isSome) ↔ |P - r| ≤ P * (2 / 100))
    ∧ (P * (2 / 100) < |P - r| →
        (buyStock symbol r q uid listing storeOk vendorBuy now db).1 =
          Except.ok { success := false, message := some toleranceMessage,
                      transactionId := none })
    ∧ ((r = P * (102 / 100) ∨ r = P * (98 / 100)) →
        ∃ res : BuyResult,
          (buyStock symbol r q uid listing storeOk vendorBuy now db).1 = Except.ok res
          ∧ res.transactionId.isSome)
    ∧ ((r = P * (1021 / 1000) ∨ r = P * (979 / 1000)) →
        (buyStock symbol r q uid listing storeOk vendorBuy now db).1 =
          Except.ok { success := false, message := some toleranceMessage,
                      transactionId := none }) := by
  subst hP
  have hiff : (∃ res : BuyResult,
      (buyStock symbol r q uid listing storeOk vendorBuy now db).1 = Except.ok res
      ∧ res.transactionId.isSome) ↔ |dto.price - r| ≤ dto.price * (2 / 100) := by
    constructor
    · rintro ⟨res, hres, hsome⟩
      by_contra hgt
      push_neg at hgt
      have := buyStock_rejected_of_tolerance symbol r q uid listing storeOk vendorBuy now db
        dto db1 evs1 called hget hgt
      rw [this] at hres
      simp only [Except.ok.injEq] at hres
      rw [← hres] at hsome
      simp at hsome
    · intro hle
      obtain ⟨res, hres, hid⟩ := buyStock_admitted_of_tolerance symbol r q uid listing storeOk
        vendorBuy now db dto db1 evs1 called hget (not_lt.mpr hle)
      exact ⟨res, hres, by rw [hid]; rfl⟩
  have hrej : dto.price * (2 / 100) < |dto.price - r| →
      (buyStock symbol r q uid listing storeOk vendorBuy now db).1 =
        Except.ok { success := false, message := some toleranceMessage,
                    transactionId := none } := by
    intro hgt
    rw [buyStock_rejected_of_tolerance symbol r q uid listing storeOk vendorBuy now db
      dto db1 evs1 called hget hgt]
  refine ⟨hiff, hrej, ?_, ?_⟩
  · rintro (hr | hr) <;> subst hr
    · refine hiff.mpr ?_
      have habs : |dto.price - dto.price * (102 / 100)| = dto.price * (2 / 100) := by
        rw [show dto.price - dto.price * (102 / 100) = -(dto.price * (2 / 100)) by ring,
          abs_neg, abs_of_nonneg (by positivity)]
      rw [habs]
    · refine hiff.mpr ?_
      have habs : |dto.price - dto.price * (98 / 100)| = dto.price * (2 / 100) := by
        rw [show dto.price - dto.price * (98 / 100) = dto.price * (2 / 100) by ring,
          abs_of_nonneg (by positivity)]
      rw [habs]
  · rintro (hr | hr) <;> subst hr
    · refine hrej ?_
      have habs : |dto.price - dto.price * (1021 / 1000)| = dto.price * (21 / 1000) := by
        rw [show dto.price - dto.price * (1021 / 1000) = -(dto.price * (21 / 1000)) by ring,
          abs_neg, abs_of_nonneg (by positivity)]
      rw [habs]
      nlinarith
    · refine hrej ?_
      have habs : |dto.price - dto.price * (979 / 1000)| = dto.price * (21 / 1000) := by
        rw [show dto.price - dto.price * (979 / 1000) = dto.price * (21 / 1000) by ring,
          abs_of_nonneg (by positivity)]
      rw [habs]
      nlinarith

/-- Witness for C1: with AAPL cached at 100, a request at 102 opens a
transaction while a request at 102.1 is rejected with success=false. -/
theorem tolerance_gate_witness :
    (∃ res : BuyResult,
      (buyStock "AAPL" 102 10 "u1" (Except.ok []) true (Except.ok ()) 1000 sampleDb).1 =
        Except.ok res ∧ res.transactionId.isSome)
    ∧ (buyStock "AAPL" (1021 / 10) 10 "u1" (Except.ok []) true (Except.ok ()) 1000 sampleDb).1 =
        Except.ok { success := false, message := some toleranceMessage,
                    transactionId := none } := by
  have h1 := tolerance_gate "AAPL" 100 102 10 "u1" (Except.ok []) true (Except.ok ()) 1000
    sampleDb { id := 1, symbol := "AAPL", name := "Apple", price := 100, lastUpdated := 1000 }
    sampleDb [] false (by decide) rfl (by norm_num)
  have h2 := tolerance_gate "AAPL" 100 (1021 / 10) 10 "u1" (Except.ok []) true (Except.ok ()) 1000
    sampleDb { id := 1, symbol := "AAPL", name := "Apple", price := 100, lastUpdated := 1000 }
    sampleDb [] false (by decide) rfl (by norm_num)
  exact ⟨h1.2.2.1 (Or.inl (by norm_num)), h2.2.2.2 (Or.inl (by norm_num))⟩

/-- A transaction already in the terminal SUCCESS state. -/
def sampleSuccessTx : Transaction :=
  { id := 1, userId := "u1", stockId := 1, type := TransactionType.BUY, quantity := 1,
    price := 2, totalAmount := 2, status := TransactionStatus.SUCCESS,
    errorMessage := none, createdAt := 0, processedAt := some 5 }

/-- The row `updateTransactionStatus` writes over an existing row. -/
def overwriteTx (dto : ProcessTransactionDto) (now : Int) (t : Transaction) : Transaction :=
  { t with
    status := dto.status
    errorMessage := dto.errorMessage
    processedAt := some now }

/-- The transition request a late vendor callback would issue against
the already-terminal `sampleSuccessTx`. -/
def lateDto : ProcessTransactionDto :=
  { transactionId := 1, status := TransactionStatus.FAILED,
    errorMessage := some "late vendor callback" }

/-- C3 counterexample: calling `updateTransactionStatus` on a
transaction already in SUCCESS does not fail — it returns ok and
silently overwrites the stored row to FAILED. -/
theorem terminal_overwrite_counterexample :
    updateTransactionStatus lateDto 99 [sampleSuccessTx] =
      Except.ok (overwriteTx lateDto 99 sampleSuccessTx,
        [overwriteTx lateDto 99 sampleSuccessTx])
    ∧ overwriteTx lateDto 99 sampleSuccessTx ≠ sampleSuccessTx := by
  constructor
  · rfl
  · decide

/-- C3 amended: `updateTransactionStatus` transitions any existing
transaction unconditionally — a row already in SUCCESS or FAILED is
silently overwritten with the new status, errorMessage and processedAt;
the only defined failure is an absent id. -/
theorem updateTransactionStatus_no_terminal_guard (dto : ProcessTransactionDto)
    (now : Int) (transactions : List Transaction) :
    (∀ t, transactions.find? (fun u => u.id = dto.transactionId) = some t →
      updateTransactionStatus dto now transactions =
        Except.ok (overwriteTx dto now t,
          transactions.map (fun u => if u.id = dto.transactionId then overwriteTx dto now t else u)))
    ∧ (transactions.find? (fun u => u.id = dto.transactionId) = none →
      updateTransactionStatus dto now transactions =
        Except.error "Record to update not found.") := by
  constructor
  · intro t hfind
    simp only [updateTransactionStatus, hfind]
    rfl
  · intro hfind
    simp only [updateTransactionStatus, hfind]

/-- The same transition request aimed at an id that does not exist. -/
def absentDto : ProcessTransactionDto :=
  { transactionId := 7, status := TransactionStatus.FAILED,
    errorMessage := some "late vendor callback" }

/-- Witness for the C3 amended theorem: a SUCCESS row is found and
overwritten; an absent id errors. -/
theorem updateTransactionStatus_no_terminal_guard_witness :
    updateTransactionStatus lateDto 99 [sampleSuccessTx] =
      Except.ok (overwriteTx lateDto 99 sampleSuccessTx,
        [overwriteTx lateDto 99 sampleSuccessTx])
    ∧ updateTransactionStatus absentDto 99 [sampleSuccessTx] =
      Except.error "Record to update not found." := by
  refine ⟨?_, ?_⟩
  · exact (updateTransactionStatus_no_terminal_guard lateDto 99
      [sampleSuccessTx]).1 sampleSuccessTx (by decide)
  · exact (updateTransactionStatus_no_terminal_guard absentDto 99
      [sampleSuccessTx]).2 (by decide)

/-- C10: when persisting the refreshed prices fails, `updateStockCache`
swallows the storage error: `getStocksFromVendor` still returns the
vendor items as a success, the cached rows are left unchanged, and no
error is surfaced on the listing path. -/
theorem cache_persistence_failure_swallowed (items : List VendorStock) (now : Int) (db : DB) :
    updateStockCache false items now db = (db, [])
    ∧ getStocksFromVendor (Except.ok items) false now db = (Except.ok items, db, []) := by
  constructor
  · rfl
  · rfl

theorem rxRetryAux_all_error {α : Type} (attempt : Nat → Except HttpError α)
    (e : Nat → HttpError) (h : ∀ i, attempt i = Except.error (e i)) (idx fuel : Nat) :
    rxRetryAux attempt idx fuel = (Except.error (e (idx + fuel)), idx + fuel + 1) := by
  induction fuel generalizing idx with
  | zero => simp [rxRetryAux, h idx]
  | succ n ih =>
      rw [rxRetryAux, h idx]
      rw [ih (idx + 1)]
      have h1 : idx + 1 + n = idx + (n + 1) := by omega
      rw [h1]

theorem rxRetryAux_attempts_le {α : Type} (attempt : Nat → Except HttpError α)
    (idx fuel : Nat) :
    (rxRetryAux attempt idx fuel).2 ≤ idx + fuel + 1 := by
  induction fuel generalizing idx with
  | zero => simp [rxRetryAux]
  | succ n ih =>
      rw [rxRetryAux]
      cases attempt idx with
      | ok a => simp
      | error msg =>
          calc (rxRetryAux attempt (idx + 1) n).2 ≤ idx + 1 + n + 1 := ih (idx + 1)
            _ ≤ idx + (n + 1) + 1 := by omega

/-- C7 counterexample: a non-transient HTTP 400 response is retried
like any other failure — with the default 3 retry attempts the vendor
call is attempted 4 times, not once. -/
theorem retry_on_4xx_counterexample :
    (rxRetry (fun _ => (Except.error { statusCode := some 400, message := "Bad Request" } :
      Except HttpError (List VendorStock))) 3).2 = 4
    ∧ (4 : Nat) ≠ 1 := by
  constructor
  · rfl
  · decide

/-- C7 amended: the rxjs `retry({count, delay})` pipeline retries every
failure uniformly — transient or not, including 4xx — up to
`retryAttempts` additional times (config default 3) with `retryDelay`
(config default 1000ms) slept before each resubscription; a source that
fails every attempt is attempted exactly retryAttempts+1 times, a
success stops retrying, and no error classification ever happens. -/
theorem retry_policy_uniform {α : Type} (attempt : Nat → Except HttpError α) (count : Nat) :
    (getConfiguration none none).retryAttempts = 3
    ∧ (getConfiguration none none).retryDelay = 1000
    ∧ (∀ e : Nat → HttpError, (∀ i, attempt i = Except.error (e i)) →
        rxRetry attempt count = (Except.error (e count), count + 1)
        ∧ retryTotalDelay (rxRetry attempt count).2 1000 = count * 1000)
    ∧ (∀ a : α, attempt 0 = Except.ok a → rxRetry attempt count = (Except.ok a, 1))
    ∧ (rxRetry attempt count).2 ≤ count + 1 := by
  refine ⟨rfl, rfl, ?_, ?_, ?_⟩
  · intro e h
    have hmain : rxRetry attempt count = (Except.error (e count), count + 1) := by
      rw [rxRetry, rxRetryAux_all_error attempt e h 0 count, Nat.zero_add]
    refine ⟨hmain, ?_⟩
    rw [hmain]
    simp [retryTotalDelay]
  · intro a h
    cases count with
    | zero => simp [rxRetry, rxRetryAux, h]
    | succ n => simp [rxRetry, rxRetryAux, h]
  · have := rxRetryAux_attempts_le attempt 0 count
    rw [rxRetry]
    omega

/-- Witness for C7 amended: an always-400 source under the default
config is attempted 4 times with 3000ms total delay; an immediately
successful source is attempted once. -/
theorem retry_policy_uniform_witness :
    rxRetry (fun _ => (Except.error { statusCode := some 400, message := "Bad Request" } :
        Except HttpError Nat)) 3 =
      (Except.error { statusCode := some 400, message := "Bad Request" }, 4)
    ∧ rxRetry (fun _ => (Except.ok 7 : Except HttpError Nat)) 3 = (Except.ok 7, 1) := by
  constructor
  · exact ((retry_policy_uniform (fun _ => (Except.error
      { statusCode := some 400, message := "Bad Request" } : Except HttpError Nat)) 3).2.2.1
      (fun _ => { statusCode := some 400, message := "Bad Request" }) (fun _ => rfl)).1
  · exact (retry_policy_uniform (fun _ => (Except.ok 7 : Except HttpError Nat)) 3).2.2.2.1 7 rfl

/-- C9 counterexample: `getDailyTransactionStats` mutates its input:
`date.setHours(...)` leaves the caller's Date at the last millisecond
of the day — for input 100 (00:00:00.100 of day 0) the date afterwards
is 86399999, not 100. -/
theorem daily_stats_mutates_input_counterexample :
    (getDailyTransactionStats [] [] 100).2 = 86399999
    ∧ (86399999 : Int) ≠ 100 := by
  constructor
  · rfl
  · decide

/-- C9 amended: computing daily stats twice for the same date over an
unchanged transaction store yields identical results (the query is a
pure read of the store), but the computation is not free of side
effects on its inputs: the caller's Date object is mutated in place to
the last millisecond of its day. -/
theorem daily_stats_idempotent_but_mutates_date (stocks : List Stock)
    (transactions : List Transaction) (date : Int) :
    (getDailyTransactionStats stocks transactions
        ((getDailyTransactionStats stocks transactions date).2)).1 =
      (getDailyTransactionStats stocks transactions date).1
    ∧ (getDailyTransactionStats stocks transactions date).2 = jsSetHoursEnd date := by
  have hstart : jsSetHoursStart (jsSetHoursEnd (jsSetHoursStart date)) = jsSetHoursStart date := by
    simp only [jsSetHoursStart, jsSetHoursEnd, msPerDay]
    omega
  have hsnd : (getDailyTransactionStats stocks transactions date).2 =
      jsSetHoursEnd (jsSetHoursStart date) := rfl
  constructor
  · rw [hsnd]
    show (getDailyTransactionStats stocks transactions
        (jsSetHoursEnd (jsSetHoursStart date))).1 = _
    simp only [getDailyTransactionStats, hstart]
  · rw [hsnd]
    simp only [jsSetHoursStart, jsSetHoursEnd, msPerDay]
    omega

theorem list_map_eq_self {α : Type} (l : List α) (f : α → α) (h : ∀ a ∈ l, f a = a) :
    l.map f = l := by
  induction l with
  | nil => rfl
  | cons a t ih =>
      simp only [List.map_cons, h a (List.mem_cons_self a t)]
      rw [ih (fun x hx => h x (List.mem_cons_of_mem a hx))]

/-- The non-stock tables and their frame: `upsertStock` touches only
the stocks table and the id counter. -/
theorem upsertStock_frame (symbol name : String) (price : ℚ) (now : Int) (db : DB) :
    ((upsertStock symbol name price now db).2.1).transactions = db.transactions
    ∧ ((upsertStock symbol name price now db).2.1).portfolios = db.portfolios
    ∧ ((upsertStock symbol name price now db).2.1).positions = db.positions := by
  rcases h : db.stocks.find? (fun s => s.symbol = jsToUpperCase symbol) with _ | st <;>
    simp [upsertStock, h]

theorem cacheFold_frame (items : List VendorStock) (now : Int) (acc : DB × List DBEvent) :
    ((items.foldl (fun acc vs =>
        let (_, db2, evs) := upsertStock vs.symbol vs.name vs.price now acc.1
        (db2, acc.2 ++ evs)) acc).1).transactions = acc.1.transactions
    ∧ ((items.foldl (fun acc vs =>
        let (_, db2, evs) := upsertStock vs.symbol vs.name vs.price now acc.1
        (db2, acc.2 ++ evs)) acc).1).portfolios = acc.1.portfolios
    ∧ ((items.foldl (fun acc vs =>
        let (_, db2, evs) := upsertStock vs.symbol vs.name vs.price now acc.1
        (db2, acc.2 ++ evs)) acc).1).positions = acc.1.positions := by
  induction items generalizing acc with
  | nil => exact ⟨rfl, rfl, rfl⟩
  | cons v rest ih =>
      simp only [List.foldl_cons]
      rcases hu : upsertStock v.symbol v.name v.price now acc.1 with ⟨row, db2, evs⟩
      have hup := upsertStock_frame v.symbol v.name v.price now acc.1
      rw [hu] at hup
      obtain ⟨ht, hp, hq⟩ := ih (db2, acc.2 ++ evs)
      simp only [hu]
      exact ⟨ht.trans hup.1, hp.trans hup.2.1, hq.trans hup.2.2⟩

theorem updateStockCache_frame (storeOk : Bool) (items : List VendorStock) (now : Int)
    (db : DB) :
    ((updateStockCache storeOk items now db).1).transactions = db.transactions
    ∧ ((updateStockCache storeOk items now db).1).portfolios = db.portfolios
    ∧ ((updateStockCache storeOk items now db).1).positions = db.positions := by
  cases storeOk with
  | false => exact ⟨rfl, rfl, rfl⟩
  | true =>
      simp only [updateStockCache, if_pos]
      exact cacheFold_frame items now (db, [])

theorem getStocksFromVendor_frame (listing : Except String (List VendorStock))
    (storeOk : Bool) (now : Int) (db : DB) :
    ((getStocksFromVendor listing storeOk now db).2.1).transactions = db.transactions
    ∧ ((getStocksFromVendor listing storeOk now db).2.1).portfolios = db.portfolios
    ∧ ((getStocksFromVendor listing storeOk now db).2.1).positions = db.positions := by
  cases listing with
  | error msg => exact ⟨rfl, rfl, rfl⟩
  | ok items =>
      simp only [getStocksFromVendor]
      exact updateStockCache_frame storeOk items now db

/-- The refresh block touches only the stocks table and the id
counter. -/
theorem refreshAndRead_frame (symbol : String) (listing : Except String (List VendorStock))
    (storeOk : Bool) (now : Int) (db : DB) :
    ((refreshAndRead symbol listing storeOk now db).2.1).transactions = db.transactions
    ∧ ((refreshAndRead symbol listing storeOk now db).2.1).portfolios = db.portfolios
    ∧ ((refreshAndRead symbol listing storeOk now db).2.1).positions = db.positions := by
  have hvf := getStocksFromVendor_frame listing storeOk now db
  rcases hv : getStocksFromVendor listing storeOk now db with ⟨res, db2, evs⟩
  rw [hv] at hvf
  cases res with
  | error msg =>
      simp only [refreshAndRead, hv]
      exact hvf
  | ok items =>
      rcases hfi : items.find? (fun v => jsToUpperCase v.symbol = jsToUpperCase symbol) with _ | vs
      · simp only [refreshAndRead, hv, hfi]
        exact hvf
      · have huf := upsertStock_frame symbol vs.name vs.price now db2
        rcases hu : upsertStock symbol vs.name vs.price now db2 with ⟨row, db3, evs2⟩
        rw [hu] at huf
        simp only [refreshAndRead, hv, hfi, hu]
        exact ⟨huf.1.trans hvf.1, huf.2.1.trans hvf.2.1, huf.2.2.trans hvf.2.2⟩

/-- `getStockBySymbol` touches only the stocks table and the id
counter: transactions, portfolios and positions are unchanged on every
path. -/
theorem getStockBySymbol_frame (symbol : String) (listing : Except String (List VendorStock))
    (storeOk : Bool) (now : Int) (db : DB) :
    ((getStockBySymbol symbol listing storeOk now db).2.1).transactions = db.transactions
    ∧ ((getStockBySymbol symbol listing storeOk now db).2.1).portfolios = db.portfolios
    ∧ ((getStockBySymbol symbol listing storeOk now db).2.1).positions = db.positions := by
  rcases hfind : db.stocks.find? (fun s => s.symbol = jsToUpperCase symbol) with _ | stock
  · simp only [getStockBySymbol, hfind]
    exact refreshAndRead_frame symbol listing storeOk now db
  · simp only [getStockBySymbol, hfind]
    by_cases hstale : stock.lastUpdated < fiveMinutesAgo now
    · simp only [if_pos hstale]
      exact refreshAndRead_frame symbol listing storeOk now db
    · simp only [if_neg hstale]
      exact ⟨trivial, trivial, trivial⟩

/-- A store whose AAPL row is stale at check time 10000000. -/
def staleDb : DB :=
  { stocks := [{ id := 1, symbol := "AAPL", name := "Apple", price := 100, lastUpdated := 0 }]
    transactions := [], portfolios := [], positions := [], nextId := 2 }

/-- The vendor listing the stale lookup refreshes from. -/
def newListing : List VendorStock := [{ symbol := "AAPL", name := "Apple", price := 200 }]

/-- `staleDb` after the stale lookup refreshed the AAPL row. -/
def refreshedDb : DB :=
  { stocks := [{ id := 1, symbol := "AAPL", name := "Apple", price := 200,
                 lastUpdated := 10000000 }]
    transactions := [], portfolios := [], positions := [], nextId := 2 }

/-- The dto the refreshed lookup returns. -/
def dtoAAPL200 : StockDto :=
  { id := 1, symbol := "AAPL", name := "Apple", price := 200, lastUpdated := 10000000 }

theorem staleDb_refresh_eval :
    getStockBySymbol "AAPL" (Except.ok newListing) true 10000000 staleDb =
      (Except.ok (some dtoAAPL200), refreshedDb,
       [DBEvent.stockUpsert "AAPL", DBEvent.stockUpsert "AAPL"], true) := by
  decide

theorem viol_100_of_200 : (dtoAAPL200.price : ℚ) * (2 / 100) < |dtoAAPL200.price - 100| := by
  show (200 : ℚ) * (2 / 100) < |(200 : ℚ) - 100|
  rw [show (200 : ℚ) - 100 = 100 by norm_num,
    abs_of_nonneg (by norm_num : (0 : ℚ) ≤ 100)]
  norm_num

/-- C4 counterexample: a tolerance-violating buy request hitting a
stale cache is rejected with success=false and creates no transaction,
but the stored state is NOT unchanged — the pre-check price lookup
refreshed the stock cache row. -/
theorem rejected_buy_mutates_cache_counterexample :
    buyStock "AAPL" 100 10 "u1" (Except.ok newListing) true (Except.ok ()) 10000000 staleDb =
      (Except.ok { success := false, message := some toleranceMessage,
                   transactionId := none }, refreshedDb,
       [DBEvent.stockUpsert "AAPL", DBEvent.stockUpsert "AAPL"])
    ∧ refreshedDb.transactions = staleDb.transactions
    ∧ refreshedDb.stocks ≠ staleDb.stocks := by
  refine ⟨?_, rfl, by decide⟩
  exact buyStock_rejected_of_tolerance "AAPL" 100 10 "u1" (Except.ok newListing) true
    (Except.ok ()) 10000000 staleDb dtoAAPL200 refreshedDb
    [DBEvent.stockUpsert "AAPL", DBEvent.stockUpsert "AAPL"] true
    staleDb_refresh_eval viol_100_of_200

/-- C4 amended: a tolerance-violating buy request returns a rejected
result (success=false with a message) and creates zero Transaction
rows; transactions, portfolios and positions are unchanged — but the
stock-cache rows may have been refreshed by the pre-check price lookup
when the cached price was absent or stale. -/
theorem tolerance_rejection_frame (symbol : String) (r q : ℚ) (uid : String)
    (listing : Except String (List VendorStock)) (storeOk : Bool)
    (vendorBuy : Except String Unit) (now : Int) (db : DB)
    (dto : StockDto) (db1 : DB) (evs1 : List DBEvent) (called : Bool)
    (hget : getStockBySymbol symbol listing storeOk now db =
      (Except.ok (some dto), db1, evs1, called))
    (hviol : dto.price * (2 / 100) < |dto.price - r|) :
    buyStock symbol r q uid listing storeOk vendorBuy now db =
      (Except.ok { success := false, message := some toleranceMessage,
                   transactionId := none }, db1, evs1)
    ∧ db1.transactions = db.transactions
    ∧ db1.portfolios = db.portfolios
    ∧ db1.positions = db.positions := by
  have hframe := getStockBySymbol_frame symbol listing storeOk now db
  rw [hget] at hframe
  exact ⟨buyStock_rejected_of_tolerance symbol r q uid listing storeOk vendorBuy now db
    dto db1 evs1 called hget hviol, hframe.1, hframe.2.1, hframe.2.2⟩

/-- Witness for C4 amended: the stale-cache rejection above leaves
transactions, portfolios and positions untouched. -/
theorem tolerance_rejection_frame_witness :
    buyStock "AAPL" 100 10 "u1" (Except.ok newListing) true (Except.ok ()) 10000000 staleDb =
      (Except.ok { success := false, message := some toleranceMessage,
                   transactionId := none }, refreshedDb,
       [DBEvent.stockUpsert "AAPL", DBEvent.stockUpsert "AAPL"])
    ∧ refreshedDb.transactions = staleDb.transactions
    ∧ refreshedDb.portfolios = staleDb.portfolios
    ∧ refreshedDb.positions = staleDb.positions :=
  tolerance_rejection_frame "AAPL" 100 10 "u1" (Except.ok newListing) true
    (Except.ok ()) 10000000 staleDb dtoAAPL200 refreshedDb
    [DBEvent.stockUpsert "AAPL", DBEvent.stockUpsert "AAPL"] true
    staleDb_refresh_eval viol_100_of_200
/-- C6: when a PENDING transaction was created and the vendor buy call
fails, `buyStock` marks that transaction FAILED with the vendor's error
message and processedAt set, returns success=false carrying the
transaction id and the message, and leaves portfolios and positions
unchanged. -/
theorem vendor_failure_path (symbol : String) (r q : ℚ) (uid : String)
    (listing : Except String (List VendorStock)) (storeOk : Bool) (msg : String)
    (now : Int) (db : DB) (dto : StockDto) (db1 : DB) (evs1 : List DBEvent) (called : Bool)
    (hget : getStockBySymbol symbol listing storeOk now db =
      (Except.ok (some dto), db1, evs1, called))
    (htol : ¬ dto.price * (2 / 100) < |dto.price - r|)
    (hids : ∀ t ∈ db.transactions, t.id ≠ db1.nextId) :
    (buyStock symbol r q uid listing storeOk (Except.error msg) now db).1 =
      Except.ok { success := false, message := some msg, transactionId := some db1.nextId }
    ∧ ((buyStock symbol r q uid listing storeOk (Except.error msg) now db).2.1).transactions =
        db.transactions ++
          [{ id := db1.nextId, userId := uid, stockId := dto.id,
             type := TransactionType.BUY, quantity := q, price := r,
             totalAmount := r * q, status := TransactionStatus.FAILED,
             errorMessage := some msg, createdAt := now,
             processedAt := some now : Transaction }]
    ∧ ((buyStock symbol r q uid listing storeOk (Except.error msg) now db).2.1).portfolios =
        db.portfolios
    ∧ ((buyStock symbol r q uid listing storeOk (Except.error msg) now db).2.1).positions =
        db.positions := by
  have hframe := getStockBySymbol_frame symbol listing storeOk now db
  rw [hget] at hframe
  simp only [buyStock, hget]
  rw [if_neg htol]
  refine ⟨rfl, ?_, hframe.2.1, hframe.2.2⟩
  show (db1.transactions ++
      [{ id := db1.nextId, userId := uid, stockId := dto.id, type := TransactionType.BUY,
         quantity := q, price := r, totalAmount := r * q,
         status := TransactionStatus.PENDING, errorMessage := none, createdAt := now,
         processedAt := none : Transaction }]).map _ = _
  rw [List.map_append, hframe.1]
  congr 1
  · refine list_map_eq_self _ _ (fun t ht => ?_)
    rw [if_neg (hids t ht)]
  · simp

theorem tol_102_of_100 : ¬ ((100 : ℚ) * (2 / 100) < |(100 : ℚ) - 102|) := by
  rw [show (100 : ℚ) - 102 = -2 by norm_num, abs_neg,
    abs_of_nonneg (by norm_num : (0 : ℚ) ≤ 2)]
  norm_num

/-- Witness for C6: an admitted buy of 10 AAPL at 102 whose vendor call
fails with "boom" yields success=false with the id and message, a
FAILED ledger row, and untouched portfolios/positions. -/
theorem vendor_failure_path_witness :
    (buyStock "AAPL" 102 10 "u1" (Except.ok []) true (Except.error "boom") 1000 sampleDb).1 =
      Except.ok { success := false, message := some "boom", transactionId := some 2 }
    ∧ ((buyStock "AAPL" 102 10 "u1" (Except.ok []) true (Except.error "boom") 1000
        sampleDb).2.1).transactions =
      sampleDb.transactions ++
        [{ id := 2, userId := "u1", stockId := 1, type := TransactionType.BUY,
           quantity := 10, price := 102, totalAmount := 102 * 10,
           status := TransactionStatus.FAILED, errorMessage := some "boom",
           createdAt := 1000, processedAt := some 1000 : Transaction }]
    ∧ ((buyStock "AAPL" 102 10 "u1" (Except.ok []) true (Except.error "boom") 1000
        sampleDb).2.1).portfolios = sampleDb.portfolios
    ∧ ((buyStock "AAPL" 102 10 "u1" (Except.ok []) true (Except.error "boom") 1000
        sampleDb).2.1).positions = sampleDb.positions :=
  vendor_failure_path "AAPL" 102 10 "u1" (Except.ok []) true "boom" 1000 sampleDb
    { id := 1, symbol := "AAPL", name := "Apple", price := 100, lastUpdated := 1000 }
    sampleDb [] false (by decide) tol_102_of_100 (by intro t ht; cases ht)

/-- Events that mutate a Portfolio or PortfolioStock row. -/
def isPortfolioMutation : DBEvent → Bool
  | DBEvent.portfolioCreate _ => true
  | DBEvent.positionCreate _ _ => true
  | DBEvent.positionUpdate _ _ => true
  | _ => false

/-- Events that write a terminal (SUCCESS or FAILED) transaction
state to the ledger. -/
def isTerminalLedgerWrite : DBEvent → Bool
  | DBEvent.txUpdate _ TransactionStatus.SUCCESS => true
  | DBEvent.txUpdate _ TransactionStatus.FAILED => true
  | _ => false

/-- The ordering invariant over a trace: every portfolio mutation is
preceded by a terminal ledger write. -/
def ledgerPrecedesPortfolio (evs : List DBEvent) : Prop :=
  ∀ i (hi : i < evs.length), isPortfolioMutation (evs.get ⟨i, hi⟩) = true →
    ∃ j, ∃ hj : j < evs.length, j < i ∧ isTerminalLedgerWrite (evs.get ⟨j, hj⟩) = true

theorem lpp_nil : ledgerPrecedesPortfolio [] := by
  intro i hi
  exact absurd hi (by simp)

theorem lpp_cons_of_nonmut (e : DBEvent) (L : List DBEvent)
    (he : isPortfolioMutation e = false) (hL : ledgerPrecedesPortfolio L) :
    ledgerPrecedesPortfolio (e :: L) := by
  intro i hi hmut
  cases i with
  | zero =>
      rw [show (e :: L).get ⟨0, hi⟩ = e from rfl, he] at hmut
      cases hmut
  | succ n =>
      have hn : n < L.length := by simpa using hi
      obtain ⟨j, hj, hji, hterm⟩ := hL n hn hmut
      exact ⟨j + 1, by simpa using Nat.succ_lt_succ hj, Nat.succ_lt_succ hji, hterm⟩

theorem lpp_after_terminal (u : DBEvent) (B : List DBEvent)
    (hu : isTerminalLedgerWrite u = true) :
    ledgerPrecedesPortfolio (u :: B) := by
  intro i hi hmut
  cases i with
  | zero =>
      have hm : isPortfolioMutation u = false := by
        cases u with
        | stockUpsert s => rfl
        | txCreate id => rfl
        | txUpdate id st => rfl
        | portfolioCreate id => simp [isTerminalLedgerWrite] at hu
        | positionCreate a b => simp [isTerminalLedgerWrite] at hu
        | positionUpdate a b => simp [isTerminalLedgerWrite] at hu
      rw [show (u :: B).get ⟨0, hi⟩ = u from rfl, hm] at hmut
      cases hmut
  | succ n => exact ⟨0, by simp, Nat.succ_pos n, hu⟩

theorem lpp_append_nonmut (A L : List DBEvent)
    (hA : ∀ e ∈ A, isPortfolioMutation e = false) (hL : ledgerPrecedesPortfolio L) :
    ledgerPrecedesPortfolio (A ++ L) := by
  induction A with
  | nil => exact hL
  | cons a A ih =>
      exact lpp_cons_of_nonmut a (A ++ L) (hA a (List.mem_cons_self a A))
        (ih (fun e he => hA e (List.mem_cons_of_mem a he)))

theorem lpp_of_no_mut (L : List DBEvent) (hL : ∀ e ∈ L, isPortfolioMutation e = false) :
    ledgerPrecedesPortfolio L := by
  have := lpp_append_nonmut L [] hL lpp_nil
  simpa using this

theorem upsertStock_events (symbol name : String) (price : ℚ) (now : Int) (db : DB) :
    (upsertStock symbol name price now db).2.2 =
      [DBEvent.stockUpsert (jsToUpperCase symbol)] := by
  rcases h : db.stocks.find? (fun s => s.symbol = jsToUpperCase symbol) with _ | st <;>
    simp [upsertStock, h]

theorem cacheFold_events (items : List VendorStock) (now : Int) (acc : DB × List DBEvent)
    (hacc : ∀ e ∈ acc.2, ∃ s, e = DBEvent.stockUpsert s) :
    ∀ e ∈ (items.foldl (fun acc vs =>
        let (_, db2, evs) := upsertStock vs.symbol vs.name vs.price now acc.1
        (db2, acc.2 ++ evs)) acc).2, ∃ s, e = DBEvent.stockUpsert s := by
  induction items generalizing acc with
  | nil => exact hacc
  | cons v rest ih =>
      simp only [List.foldl_cons]
      have hue := upsertStock_events v.symbol v.name v.price now acc.1
      rcases hu : upsertStock v.symbol v.name v.price now acc.1 with ⟨row, db2, evs⟩
      rw [hu] at hue
      simp only [hu]
      refine ih (db2, acc.2 ++ evs) ?_
      intro e he
      rcases List.mem_append.mp he with h1 | h2
      · exact hacc e h1
      · have hevs : evs = [DBEvent.stockUpsert (jsToUpperCase v.symbol)] := hue
        rw [hevs, List.mem_singleton] at h2
        exact ⟨jsToUpperCase v.symbol, h2⟩

theorem updateStockCache_events (storeOk : Bool) (items : List VendorStock) (now : Int)
    (db : DB) :
    ∀ e ∈ (updateStockCache storeOk items now db).2, ∃ s, e = DBEvent.stockUpsert s := by
  cases storeOk with
  | false => intro e he; cases he
  | true =>
      simp only [updateStockCache, if_pos]
      exact cacheFold_events items now (db, []) (fun e he => by cases he)

theorem getStocksFromVendor_events (listing : Except String (List VendorStock))
    (storeOk : Bool) (now : Int) (db : DB) :
    ∀ e ∈ (getStocksFromVendor listing storeOk now db).2.2,
      ∃ s, e = DBEvent.stockUpsert s := by
  cases listing with
  | error msg => intro e he; cases he
  | ok items =>
      simp only [getStocksFromVendor]
      exact updateStockCache_events storeOk items now db

theorem refreshAndRead_events (symbol : String) (listing : Except String (List VendorStock))
    (storeOk : Bool) (now : Int) (db : DB) :
    ∀ e ∈ (refreshAndRead symbol listing storeOk now db).2.2.1,
      ∃ s, e = DBEvent.stockUpsert s := by
  have hvevents := getStocksFromVendor_events listing storeOk now db
  rcases hv : getStocksFromVendor listing storeOk now db with ⟨res, db2, evs⟩
  rw [hv] at hvevents
  cases res with
  | error msg => simp only [refreshAndRead, hv]; exact hvevents
  | ok items =>
      rcases hfi : items.find? (fun v => jsToUpperCase v.symbol = jsToUpperCase symbol)
        with _ | vs
      · simp only [refreshAndRead, hv, hfi]
        exact hvevents
      · have hue := upsertStock_events symbol vs.name vs.price now db2
        rcases hu : upsertStock symbol vs.name vs.price now db2
          with ⟨row, db3, evs2⟩
        rw [hu] at hue
        simp only [refreshAndRead, hv, hfi, hu]
        intro e he
        rcases List.mem_append.mp he with h1 | h2
        · exact hvevents e h1
        · have hevs2 : evs2 = [DBEvent.stockUpsert (jsToUpperCase symbol)] := hue
          rw [hevs2, List.mem_singleton] at h2
          exact ⟨jsToUpperCase symbol, h2⟩

theorem getStockBySymbol_events (symbol : String)
    (listing : Except String (List VendorStock)) (storeOk : Bool) (now : Int) (db : DB) :
    ∀ e ∈ (getStockBySymbol symbol listing storeOk now db).2.2.1,
      ∃ s, e = DBEvent.stockUpsert s := by
  rcases hfind : db.stocks.find? (fun s => s.symbol = jsToUpperCase symbol) with _ | stock
  · simp only [getStockBySymbol, hfind]
    exact refreshAndRead_events symbol listing storeOk now db
  · simp only [getStockBySymbol, hfind]
    by_cases hstale : stock.lastUpdated < fiveMinutesAgo now
    · simp only [if_pos hstale]
      exact refreshAndRead_events symbol listing storeOk now db
    · simp only [if_neg hstale]
      intro e he
      cases he

theorem lpp_shape (A X : List DBEvent) (c u : DBEvent)
    (hA : ∀ e ∈ A, isPortfolioMutation e = false)
    (hc : isPortfolioMutation c = false)
    (hu : isTerminalLedgerWrite u = true) :
    ledgerPrecedesPortfolio (A ++ [c] ++ [u] ++ X) := by
  have h : A ++ [c] ++ [u] ++ X = A ++ (c :: u :: X) := by simp
  rw [h]
  exact lpp_append_nonmut A _ (fun e he => hA e he)
    (lpp_cons_of_nonmut c _ hc (lpp_after_terminal u X hu))

theorem lpp_shape2 (A : List DBEvent) (c u : DBEvent)
    (hA : ∀ e ∈ A, isPortfolioMutation e = false)
    (hc : isPortfolioMutation c = false)
    (hu : isTerminalLedgerWrite u = true) :
    ledgerPrecedesPortfolio (A ++ [c] ++ [u]) := by
  have h : A ++ [c] ++ [u] = A ++ (c :: u :: []) := by simp
  rw [h]
  exact lpp_append_nonmut A _ (fun e he => hA e he)
    (lpp_cons_of_nonmut c _ hc (lpp_after_terminal u [] hu))

/-- C5: in every execution of `buyStock`, the transaction's transition
to a terminal state (SUCCESS or FAILED) is written before any Portfolio
or PortfolioStock mutation: at every point of the trace, a portfolio
mutation is preceded by a terminal ledger write. -/
theorem ledger_write_precedes_portfolio_mutation (symbol : String) (r q : ℚ)
    (uid : String) (listing : Except String (List VendorStock)) (storeOk : Bool)
    (vendorBuy : Except String Unit) (now : Int) (db : DB) :
    ledgerPrecedesPortfolio
      ((buyStock symbol r q uid listing storeOk vendorBuy now db).2.2) := by
  have hevents := getStockBySymbol_events symbol listing storeOk now db
  rcases hg : getStockBySymbol symbol listing storeOk now db with ⟨res, db1, evs1, called⟩
  rw [hg] at hevents
  have hA : ∀ e ∈ evs1, isPortfolioMutation e = false := by
    intro e he
    obtain ⟨s2, rfl⟩ := hevents e he
    rfl
  rcases hb : buyStock symbol r q uid listing storeOk vendorBuy now db with ⟨res2, db2, evs⟩
  show ledgerPrecedesPortfolio evs
  cases res with
  | error msg =>
      simp only [buyStock, hg, Prod.mk.injEq] at hb
      rw [← hb.2.2]
      exact lpp_of_no_mut evs1 hA
  | ok odto =>
      cases odto with
      | none =>
          simp only [buyStock, hg, Prod.mk.injEq] at hb
          rw [← hb.2.2]
          exact lpp_of_no_mut evs1 hA
      | some dto =>
          simp only [buyStock, hg] at hb
          split at hb
          · simp only [Prod.mk.injEq] at hb
            rw [← hb.2.2]
            exact lpp_of_no_mut evs1 hA
          · cases vendorBuy with
            | ok u =>
                simp only [Prod.mk.injEq] at hb
                rw [← hb.2.2]
                refine lpp_shape evs1 _ _ _ hA ?_ ?_ <;> rfl
            | error msg =>
                simp only [Prod.mk.injEq] at hb
                rw [← hb.2.2]
                refine lpp_shape2 evs1 _ _ hA ?_ ?_ <;> rfl

/-- The dto served from the fresh `sampleDb` cache. -/
def dto100 : StockDto :=
  { id := 1, symbol := "AAPL", name := "Apple", price := 100, lastUpdated := 1000 }

theorem sampleDb_get_eval :
    getStockBySymbol "AAPL" (Except.ok []) true 1000 sampleDb =
      (Except.ok (some dto100), sampleDb, [], false) := by
  decide

theorem buy_success_trace_eval :
    (buyStock "AAPL" 102 10 "u1" (Except.ok []) true (Except.ok ()) 1000 sampleDb).2.2 =
      [DBEvent.txCreate 2, DBEvent.txUpdate 2 TransactionStatus.SUCCESS,
       DBEvent.portfolioCreate 3, DBEvent.positionCreate 3 1] := by
  simp only [buyStock]
  rw [sampleDb_get_eval]
  simp only [if_neg tol_102_of_100, updateUserPortfolio, sampleDb]
  simp [applyFill, dto100]
  rw [if_neg tol_102_of_100]

/-- Witness for C5: in the successful sample buy, the portfolio
mutation at trace index 2 is preceded by the SUCCESS ledger write. -/
theorem ledger_write_precedes_portfolio_mutation_witness :
    ∃ j, ∃ hj : j <
        ((buyStock "AAPL" 102 10 "u1" (Except.ok []) true (Except.ok ()) 1000
          sampleDb).2.2).length,
      j < 2 ∧ isTerminalLedgerWrite
        (((buyStock "AAPL" 102 10 "u1" (Except.ok []) true (Except.ok ()) 1000
          sampleDb).2.2).get ⟨j, hj⟩) = true := by
  have e := buy_success_trace_eval
  have hi : (2 : Nat) < ((buyStock "AAPL" 102 10 "u1" (Except.ok []) true (Except.ok ()) 1000
      sampleDb).2.2).length := by
    rw [e]
    decide
  have hmut : isPortfolioMutation
      (((buyStock "AAPL" 102 10 "u1" (Except.ok []) true (Except.ok ()) 1000
        sampleDb).2.2).get ⟨2, hi⟩) = true := by
    rw [List.get_of_eq e]
    rfl
  exact ledger_write_precedes_portfolio_mutation "AAPL" 102 10 "u1" (Except.ok []) true
    (Except.ok ()) 1000 sampleDb 2 hi hmut

theorem upsertStock_creates (symbol name : String) (price : ℚ) (now : Int) (db : DB) :
    ∃ row, row ∈ ((upsertStock symbol name price now db).2.1).stocks
      ∧ row.symbol = jsToUpperCase symbol ∧ row.price = price ∧ row.lastUpdated = now := by
  rcases h : db.stocks.find? (fun s => s.symbol = jsToUpperCase symbol) with _ | st
  · simp only [upsertStock, h]
    exact ⟨_, List.mem_append_right _ (List.mem_singleton_self _), rfl, rfl, rfl⟩
  · have hmem : st ∈ db.stocks := List.mem_of_find?_eq_some h
    have hst : st.symbol = jsToUpperCase symbol := by
      have := List.find?_some h
      simpa using this
    simp only [upsertStock, h]
    exact ⟨{ st with name := name, price := price, lastUpdated := now },
      List.mem_map.mpr ⟨st, hmem, by rw [if_pos hst]⟩, hst, rfl, rfl⟩

theorem upsertStock_preserves (symbol name : String) (price : ℚ) (now : Int) (db : DB)
    (row : Stock) (hrow : row ∈ db.stocks) (hne : row.symbol ≠ jsToUpperCase symbol) :
    row ∈ ((upsertStock symbol name price now db).2.1).stocks := by
  rcases h : db.stocks.find? (fun s => s.symbol = jsToUpperCase symbol) with _ | st
  · simp only [upsertStock, h]
    exact List.mem_append_left _ hrow
  · simp only [upsertStock, h]
    exact List.mem_map.mpr ⟨row, hrow, by rw [if_neg hne]⟩

theorem cacheFold_preserves (items : List VendorStock) (now : Int) (acc : DB × List DBEvent)
    (row : Stock) (hrow : row ∈ acc.1.stocks)
    (hne : ∀ w ∈ items, row.symbol ≠ jsToUpperCase w.symbol) :
    row ∈ ((items.foldl (fun acc vs =>
        let (_, db2, evs) := upsertStock vs.symbol vs.name vs.price now acc.1
        (db2, acc.2 ++ evs)) acc).1).stocks := by
  induction items generalizing acc with
  | nil => exact hrow
  | cons w rest ih =>
      simp only [List.foldl_cons]
      have hpres := upsertStock_preserves w.symbol w.name w.price now acc.1 row hrow
        (hne w (List.mem_cons_self w rest))
      rcases hu : upsertStock w.symbol w.name w.price now acc.1 with ⟨r2, db2, evs⟩
      rw [hu] at hpres
      simp only [hu]
      exact ih (db2, acc.2 ++ evs) hpres (fun x hx => hne x (List.mem_cons_of_mem w hx))

theorem cacheFold_upserts (items : List VendorStock) (now : Int) (acc : DB × List DBEvent)
    (hnodup : (items.map (fun v => jsToUpperCase v.symbol)).Nodup) :
    ∀ v ∈ items, ∃ row, row ∈ ((items.foldl (fun acc vs =>
        let (_, db2, evs) := upsertStock vs.symbol vs.name vs.price now acc.1
        (db2, acc.2 ++ evs)) acc).1).stocks
      ∧ row.symbol = jsToUpperCase v.symbol ∧ row.price = v.price
      ∧ row.lastUpdated = now := by
  induction items generalizing acc with
  | nil => intro v hv; cases hv
  | cons w rest ih =>
      intro v hv
      have hnd := List.nodup_cons.mp hnodup
      simp only [List.foldl_cons]
      have hcr := upsertStock_creates w.symbol w.name w.price now acc.1
      rcases hu : upsertStock w.symbol w.name w.price now acc.1 with ⟨r2, db2, evs⟩
      rw [hu] at hcr
      simp only [hu]
      rcases List.mem_cons.mp hv with rfl | hv2
      · obtain ⟨row, hmem, hsym, hprice, hlast⟩ := hcr
        refine ⟨row, cacheFold_preserves rest now (db2, acc.2 ++ evs) row hmem ?_,
          hsym, hprice, hlast⟩
        intro x hx hcontra
        have hvx : jsToUpperCase v.symbol = jsToUpperCase x.symbol := hsym.symm.trans hcontra
        refine hnd.1 ?_
        show jsToUpperCase v.symbol ∈ _
        rw [hvx]
        exact List.mem_map_of_mem (fun v => jsToUpperCase v.symbol) hx
      · exact ih (db2, acc.2 ++ evs) hnd.2 v hv2

theorem refreshAndRead_vendorCalled (symbol : String)
    (listing : Except String (List VendorStock)) (storeOk : Bool) (now : Int) (db : DB) :
    (refreshAndRead symbol listing storeOk now db).2.2.2 = true := by
  rcases hv : getStocksFromVendor listing storeOk now db with ⟨res, db2, evs⟩
  cases res with
  | error msg => simp only [refreshAndRead, hv]
  | ok items =>
      rcases hfi : items.find? (fun v => jsToUpperCase v.symbol = jsToUpperCase symbol)
        with _ | vs
      · simp only [refreshAndRead, hv, hfi]
      · rcases hu : upsertStock symbol vs.name vs.price now db2 with ⟨row, db3, evs2⟩
        simp only [refreshAndRead, hv, hfi, hu]

theorem refreshAndRead_none_iff (symbol : String) (items : List VendorStock)
    (storeOk : Bool) (now : Int) (db : DB) :
    (refreshAndRead symbol (Except.ok items) storeOk now db).1 = Except.ok none ↔
      items.find? (fun v => jsToUpperCase v.symbol = jsToUpperCase symbol) = none := by
  rcases hfi : items.find? (fun v => jsToUpperCase v.symbol = jsToUpperCase symbol)
    with _ | vs
  · simp only [refreshAndRead, getStocksFromVendor, hfi]
  · rcases hu : upsertStock symbol vs.name vs.price now
      (updateStockCache storeOk items now db).1 with ⟨row, db3, evs2⟩
    simp only [refreshAndRead, getStocksFromVendor, hfi, hu]
    constructor
    · intro h
      cases h
    · intro h
      cases h

theorem refreshAndRead_upserts (symbol : String) (items : List VendorStock)
    (now : Int) (db : DB)
    (hnodup : (items.map (fun v => jsToUpperCase v.symbol)).Nodup) :
    ∀ v ∈ items, ∃ row,
      row ∈ ((refreshAndRead symbol (Except.ok items) true now db).2.1).stocks
      ∧ row.symbol = jsToUpperCase v.symbol ∧ row.price = v.price
      ∧ row.lastUpdated = now := by
  intro v hv
  have hcu := cacheFold_upserts items now (db, []) hnodup v hv
  have hcache : updateStockCache true items now db =
      items.foldl (fun acc vs =>
        let (_, db2, evs) := upsertStock vs.symbol vs.name vs.price now acc.1
        (db2, acc.2 ++ evs)) (db, []) := rfl
  rcases hfi : items.find? (fun w => jsToUpperCase w.symbol = jsToUpperCase symbol)
    with _ | vs
  · simp only [refreshAndRead, getStocksFromVendor, hfi, hcache]
    exact hcu
  · have hvs_mem : vs ∈ items := List.mem_of_find?_eq_some hfi
    have hvs_sym : jsToUpperCase vs.symbol = jsToUpperCase symbol := by
      have := List.find?_some hfi
      simpa using this
    obtain ⟨row, hmem, hsym, hprice, hlast⟩ := hcu
    by_cases hvv : jsToUpperCase v.symbol = jsToUpperCase symbol
    · have hveq : v = vs :=
        List.inj_on_of_nodup_map hnodup hv hvs_mem (hvv.trans hvs_sym.symm)
      have hcr := upsertStock_creates symbol vs.name vs.price now
        (updateStockCache true items now db).1
      rcases hu : upsertStock symbol vs.name vs.price now
        (updateStockCache true items now db).1 with ⟨row2, db3, evs2⟩
      rw [hu] at hcr
      obtain ⟨row3, hmem3, hsym3, hprice3, hlast3⟩ := hcr
      refine ⟨row3, ?_, ?_, ?_, hlast3⟩
      · simp only [refreshAndRead, getStocksFromVendor, hfi, hu]
        exact hmem3
      · rw [hsym3, hvv]
      · rw [hprice3, hveq]
    · have hne : row.symbol ≠ jsToUpperCase symbol := by
        rw [hsym]
        exact hvv
      have hpres := upsertStock_preserves symbol vs.name vs.price now
        (updateStockCache true items now db).1 row (by rw [hcache]; exact hmem) hne
      rcases hu : upsertStock symbol vs.name vs.price now
        (updateStockCache true items now db).1 with ⟨row2, db3, evs2⟩
      rw [hu] at hpres
      refine ⟨row, ?_, hsym, hprice, hlast⟩
      simp only [refreshAndRead, getStocksFromVendor, hfi, hu]
      exact hpres

/-- C8: a cached row within the 5-minute freshness window is served
without any vendor call and without touching the store; an absent or
stale row triggers the vendor listing refresh before anything is
returned, the refreshed items are upserted with lastUpdated = now (when
the cache write succeeds and the listing has no duplicate symbols), and
null is returned exactly when the symbol is absent from the refreshed
listing. -/
theorem getStockBySymbol_freshness (symbol : String)
    (listing : Except String (List VendorStock)) (storeOk : Bool) (now : Int) (db : DB)
    (items : List VendorStock) :
    (∀ st, db.stocks.find? (fun s => s.symbol = jsToUpperCase symbol) = some st →
      ¬ st.lastUpdated < fiveMinutesAgo now →
      getStockBySymbol symbol listing storeOk now db =
        (Except.ok (some st.toDto), db, [], false))
    ∧ ((db.stocks.find? (fun s => s.symbol = jsToUpperCase symbol) = none
        ∨ ∃ st, db.stocks.find? (fun s => s.symbol = jsToUpperCase symbol) = some st
            ∧ st.lastUpdated < fiveMinutesAgo now) →
      getStockBySymbol symbol listing storeOk now db =
        refreshAndRead symbol listing storeOk now db
      ∧ (getStockBySymbol symbol listing storeOk now db).2.2.2 = true
      ∧ (listing = Except.ok items →
          ((getStockBySymbol symbol listing storeOk now db).1 = Except.ok none ↔
            items.find? (fun v => jsToUpperCase v.symbol = jsToUpperCase symbol) = none)
          ∧ (storeOk = true →
              (items.map (fun v => jsToUpperCase v.symbol)).Nodup →
              ∀ v ∈ items, ∃ row,
                row ∈ ((getStockBySymbol symbol listing storeOk now db).2.1).stocks
                ∧ row.symbol = jsToUpperCase v.symbol ∧ row.price = v.price
                ∧ row.lastUpdated = now))) := by
  constructor
  · intro st hfind hfresh
    simp only [getStockBySymbol, hfind]
    rw [if_neg hfresh]
  · intro hcase
    have hrefresh : getStockBySymbol symbol listing storeOk now db =
        refreshAndRead symbol listing storeOk now db := by
      rcases hcase with hnone | ⟨st, hfind, hstale⟩
      · simp only [getStockBySymbol, hnone]
      · simp only [getStockBySymbol, hfind]
        rw [if_pos hstale]
    refine ⟨hrefresh, ?_, ?_⟩
    · rw [hrefresh]
      exact refreshAndRead_vendorCalled symbol listing storeOk now db
    · intro hlist
      subst hlist
      constructor
      · rw [hrefresh]
        exact refreshAndRead_none_iff symbol items storeOk now db
      · intro hstore hnodup
        subst hstore
        rw [hrefresh]
        exact refreshAndRead_upserts symbol items now db hnodup

/-- Witness for C8: the fresh sample cache is served without a vendor
call; the stale cache triggers the refresh, whose AAPL row afterwards
carries the vendor price 200 and lastUpdated = now. -/
theorem getStockBySymbol_freshness_witness :
    getStockBySymbol "AAPL" (Except.ok newListing) true 1000 sampleDb =
      (Except.ok (some dto100), sampleDb, [], false)
    ∧ getStockBySymbol "AAPL" (Except.ok newListing) true 10000000 staleDb =
        refreshAndRead "AAPL" (Except.ok newListing) true 10000000 staleDb
    ∧ (∃ row,
        row ∈ ((getStockBySymbol "AAPL" (Except.ok newListing) true 10000000
          staleDb).2.1).stocks
        ∧ row.symbol = jsToUpperCase "AAPL" ∧ row.price = 200
        ∧ row.lastUpdated = 10000000) := by
  have hfresh := (getStockBySymbol_freshness "AAPL" (Except.ok newListing) true 1000
    sampleDb newListing).1
    { id := 1, symbol := "AAPL", name := "Apple", price := 100, lastUpdated := 1000 }
    (by decide) (by decide)
  have hstale := (getStockBySymbol_freshness "AAPL" (Except.ok newListing) true 10000000
    staleDb newListing).2 (Or.inr
      ⟨{ id := 1, symbol := "AAPL", name := "Apple", price := 100, lastUpdated := 0 },
       by decide, by decide⟩)
  refine ⟨hfresh, hstale.1, ?_⟩
  have hup := (hstale.2.2 rfl).2 rfl (by decide)
    { symbol := "AAPL", name := "Apple", price := 200 } (by decide)
  exact hup

end STP
